import Mathlib

/-
Verification of the baton-wiz-win connector core: a shallow embedding of the
GraphQL transport layer (retry/backoff discipline) and the four resource
mappers (users, roles, projects, security insights), with theorems about the
pagination, filtering and grant-derivation behaviour.

Conventions of the embedding:
  * Go strings are Lean `String`s; Go slices are Lean `List`s.
  * `time.Duration` values are integer nanosecond counts; the float64
    arithmetic of `calculateBackoff` is modelled over `ℚ` (every operation is
    mirrored exactly; float rounding is not modelled) with the final
    `time.Duration(...)` conversion modelled as `Int.floor` (Go's float-to-int
    conversion truncates, and the values involved are positive).
  * The HTTP stack underneath `graphQLRequest` is modelled as an environment
    `responses : Nat → HttpAttempt` giving the outcome of each numbered
    attempt; the loop body's observable behaviour (which result is returned
    and how many attempts are issued) is computed from it.
  * Mapper operations are modelled as pure functions of the already-fetched
    upstream page (the client fetch is the function's argument); the Go error
    paths not reachable from the modelled data (request marshalling, SDK
    resource-constructor failures) are not modelled.
-/

namespace WizWin

/-! ## Upstream schema model (pkg/wiz/models.go) -/

/-- PageInfo from models.go: Relay cursor pagination info. -/
structure PageInfo where
  HasNextPage : Bool
  EndCursor : String
  deriving DecidableEq, Repr

/-- UserRoleRef from models.go. -/
structure UserRoleRef where
  ID : String
  Name : String
  deriving DecidableEq, Repr

/-- ProjectRef from models.go. -/
structure ProjectRef where
  ID : String
  Name : String
  deriving DecidableEq, Repr

/-- User from models.go (users query shape, with effective role/projects). -/
structure User where
  ID : String
  Email : String
  Name : String
  EffectiveRole : UserRoleRef
  EffectiveAssignedProjects : List ProjectRef
  deriving DecidableEq, Repr

/-- UserConnection from models.go. -/
structure UserConnection where
  Nodes : List User
  pageInfo : PageInfo
  deriving DecidableEq, Repr

/-- UserRole from models.go. -/
structure UserRole where
  ID : String
  Name : String
  Description : String
  Scopes : List String
  Builtin : Bool
  IsProjectScoped : Bool
  deriving DecidableEq, Repr

/-- UserRoleConnection from models.go. -/
structure UserRoleConnection where
  Nodes : List UserRole
  pageInfo : PageInfo
  deriving DecidableEq, Repr

/-- ProjectOwner from models.go. -/
structure ProjectOwner where
  ID : String
  Email : String
  deriving DecidableEq, Repr

/-- SecurityChampion from models.go. -/
structure SecurityChampion where
  ID : String
  Email : String
  deriving DecidableEq, Repr

/-- Project from models.go. -/
structure Project where
  ID : String
  Name : String
  Description : String
  ProjectOwners : List ProjectOwner
  SecurityChampions : List SecurityChampion
  deriving DecidableEq, Repr

/-- ProjectConnection from models.go. -/
structure ProjectConnection where
  Nodes : List Project
  pageInfo : PageInfo
  deriving DecidableEq, Repr

/-- SourceRule from models.go. -/
structure SourceRule where
  Name : String
  deriving DecidableEq, Repr

/-- EntitySnapshot from models.go; CloudPlatform can be null. -/
structure EntitySnapshot where
  ID : String
  ExternalID : String
  CloudPlatform : Option String
  type : String
  Name : String
  deriving DecidableEq, Repr

/-- Issue from models.go; CreatedAt (time.Time) is kept as an opaque string. -/
structure Issue where
  ID : String
  type : String
  Severity : String
  Status : String
  CreatedAt : String
  sourceRule : SourceRule
  entitySnapshot : EntitySnapshot
  deriving DecidableEq, Repr

/-- IssueConnection from models.go. -/
structure IssueConnection where
  Nodes : List Issue
  pageInfo : PageInfo
  deriving DecidableEq, Repr

/-! ## Transport layer (pkg/wiz client, graphQLRequest with retry loop) -/

/-- Outcome of JSON-parsing one HTTP 200 body in graphQLRequest: either the
unmarshal fails, or it succeeds and the GraphQL envelope carries `numErrors`
entries in its `errors` array. -/
inductive ParseOutcome where
  | malformed
  | parsed (numErrors : Nat)
  deriving DecidableEq, Repr

/-- Outcome of one HTTP attempt inside graphQLRequest: a transport-level
(network) error, or an HTTP response with a status code and, for the body,
its parse outcome (only consulted when the status is 200). -/
inductive HttpAttempt where
  | netErr
  | resp (status : Nat) (parse : ParseOutcome)
  deriving DecidableEq, Repr

/-- The distinct results graphQLRequest can return, one per `return` site of
the Go function body: network failure after retries, the rate-limit-exceeded
error, a non-2xx/non-429 status error, a JSON unmarshal error, an aggregated
GraphQL-errors failure, success (nil error), and the unreachable `return
lastErr` after the loop exits. -/
inductive ReqResult where
  | netFail
  | rateLimited
  | badStatus (code : Nat)
  | unmarshalErr
  | gqlErrors (n : Nat)
  | ok
  | loopExit
  deriving DecidableEq, Repr

/-- maxRetries constant of graphQLRequest. -/
def maxRetries : Nat := 5

/-- The retry loop of graphQLRequest (`for attempt := 0; attempt <= maxRetries;
attempt++`). `fuel` is the number of loop iterations the guard still allows
(maxRetries + 1 - attempt at entry); exhausting it models the loop exiting and
the trailing `return lastErr`. Returns the result together with the number of
HTTP attempts actually issued. -/
def graphQLRequestLoop (responses : Nat → HttpAttempt) : Nat → Nat → ReqResult × Nat
  | 0, _ => (ReqResult.loopExit, 0)
  | fuel + 1, attempt =>
    match responses attempt with
    | HttpAttempt.netErr =>
      if attempt < maxRetries then
        let r := graphQLRequestLoop responses fuel (attempt + 1)
        (r.1, r.2 + 1)
      else (ReqResult.netFail, 1)
    | HttpAttempt.resp status parse =>
      if status = 429 then
        if attempt < maxRetries then
          let r := graphQLRequestLoop responses fuel (attempt + 1)
          (r.1, r.2 + 1)
        else (ReqResult.rateLimited, 1)
      else if status ≠ 200 then (ReqResult.badStatus status, 1)
      else
        match parse with
        | ParseOutcome.malformed => (ReqResult.unmarshalErr, 1)
        | ParseOutcome.parsed numErrors =>
          if numErrors > 0 then (ReqResult.gqlErrors numErrors, 1)
          else (ReqResult.ok, 1)

/-- graphQLRequest: run the retry loop from attempt 0 with the full retry
budget. -/
def graphQLRequest (responses : Nat → HttpAttempt) : ReqResult × Nat :=
  graphQLRequestLoop responses (maxRetries + 1) 0

/-- calculateBackoff from the wiz client, over exact rational arithmetic.
`r` is the `rand.Float64()` draw (in `[0, 1)` in Go); all durations are in
nanoseconds, and the final `time.Duration(backoff)` float-to-integer
conversion is the floor (the value is positive). -/
def calculateBackoff (attempt : Nat) (baseDelay maxDelay jitterFraction r : ℚ) : ℤ :=
  let backoff : ℚ := baseDelay * 2 ^ attempt
  let capped : ℚ := if backoff > maxDelay then maxDelay else backoff
  let jitter : ℚ := capped * jitterFraction * (2 * r - 1)
  ⌊capped + jitter⌋

/-- baseDelay constant of graphQLRequest: 1 second in nanoseconds. -/
def baseDelayNs : ℚ := 1000000000

/-- maxDelay constant of graphQLRequest: 32 seconds in nanoseconds. -/
def maxDelayNs : ℚ := 32000000000

/-- jitterFraction constant of graphQLRequest. -/
def jitterFraction : ℚ := 1 / 10

/-! ## Normalized resource / grant model (baton-sdk surface used by the
mappers).  A grant is `grant.NewGrant(objectResource, slug, principalId)`:
object resource type id + object resource id + entitlement slug + principal
resource id. -/

/-- Grant tuple as built by grant.NewGrant. -/
structure Grant where
  objType : String
  objId : String
  slug : String
  principal : String
  deriving DecidableEq, Repr

/-- The user-trait profile stored by the user mapper's List: the optional
"role_id" and "project_ids" entries. -/
structure UserProfile where
  role_id : Option String
  project_ids : Option (List String)
  deriving DecidableEq, Repr

/-- A user resource as built by resource.NewUserResource in the user mapper:
display name, resource id, primary email, and the user-trait profile. -/
structure UserResource where
  displayName : String
  id : String
  email : String
  profile : Option UserProfile
  deriving DecidableEq, Repr

/-- A role resource as built by resource.NewRoleResource. -/
structure RoleResource where
  displayName : String
  id : String
  deriving DecidableEq, Repr

/-- A project (group) resource as built by resource.NewGroupResource. -/
structure ProjectResource where
  displayName : String
  id : String
  description : String
  deriving DecidableEq, Repr

/-- A security-insight resource as built by resource.NewResource with the
SecurityInsightTrait in the insight mapper. -/
structure InsightResource where
  displayName : String
  id : String
  externalId : String
  appHint : String
  deriving DecidableEq, Repr

/-! ## Pagination plumbing shared by every mapper operation: the incoming page
token is turned into an optional cursor (`var cursor *string; if
attr.PageToken.Token != "" { cursor = &attr.PageToken.Token }`). -/

/-- Cursor passed to the client from the mapper's incoming page token: nil for
an empty token, the token itself otherwise. -/
def cursorFromToken (token : String) : Option String :=
  if token ≠ "" then some token else none

/-! ## User mapper (userBuilder, src/unnamed/part_003) -/

/-- Profile map built by the user mapper's List for one user: "role_id" is
stored when EffectiveRole.ID is non-empty; "project_ids" is stored when the
list of EffectiveAssignedProjects ids is non-empty. -/
def buildUserProfile (user : User) : UserProfile :=
  { role_id := if user.EffectiveRole.ID ≠ "" then some user.EffectiveRole.ID else none
    project_ids :=
      let projectIDs := user.EffectiveAssignedProjects.map (fun project => project.ID)
      if projectIDs.length > 0 then some projectIDs else none }

/-- The user resource built for one kept user: email is used as display name
and as the resource id, and the profile is attached via WithUserProfile. -/
def mkUserResource (user : User) : UserResource :=
  { displayName := user.Email
    id := user.Email
    email := user.Email
    profile := some (buildUserProfile user) }

/-- The loop body of userBuilder.List over the page's Nodes: users with an
empty Email are skipped with `continue`; every other user is appended as a
resource. -/
def userListGo : List User → List UserResource
  | [] => []
  | user :: rest =>
    if user.Email = "" then userListGo rest
    else mkUserResource user :: userListGo rest

/-- userBuilder.List on one fetched page: the emitted resources and the
next-page token (set to EndCursor only when HasNextPage). -/
def userList (resp : UserConnection) : List UserResource × String :=
  (userListGo resp.Nodes,
   if resp.pageInfo.HasNextPage then resp.pageInfo.EndCursor else "")

/-- The project-grant loop of userBuilder.Grants over the "project_ids" list
values: empty strings are skipped with `continue`; every other id yields a
"member" grant on that project with the user as principal. -/
def userProjectGrantsGo (principalId : String) : List String → List Grant
  | [] => []
  | projectID :: rest =>
    if projectID = "" then userProjectGrantsGo principalId rest
    else { objType := "project", objId := projectID, slug := "member", principal := principalId }
      :: userProjectGrantsGo principalId rest

/-- userBuilder.Grants: reads the user-trait profile of the resource; with no
profile the grant set is empty; a non-empty "role_id" yields one "member"
grant on that role; each non-empty entry of "project_ids" yields one "member"
grant on that project. -/
def userGrants (res : UserResource) : List Grant :=
  match res.profile with
  | none => []
  | some profile =>
    let roleGrants :=
      match profile.role_id with
      | some roleID =>
        if roleID ≠ "" then
          [{ objType := "role", objId := roleID, slug := "member", principal := res.id }]
        else []
      | none => []
    let projectGrants :=
      match profile.project_ids with
      | some projectIDs => userProjectGrantsGo res.id projectIDs
      | none => []
    roleGrants ++ projectGrants

/-! ## Role mapper (roleBuilder, src/pkg/connector/roles.go) and the
flat-array normalization in the client's ListUserRoles. -/

/-- ListUserRoles (userRolesV2 variant): the upstream response is a plain
array of roles, not a Relay connection; the client wraps it as
`&UserRoleConnection{Nodes: result.UserRolesV2}`, leaving PageInfo at its Go
zero value (HasNextPage=false, EndCursor=""). -/
def listUserRolesFlat (userRolesV2 : List UserRole) : UserRoleConnection :=
  { Nodes := userRolesV2
    pageInfo := { HasNextPage := false, EndCursor := "" } }

/-- The loop body of roleBuilder.List over the page's Nodes: one role resource
per role. -/
def roleListGo : List UserRole → List RoleResource
  | [] => []
  | role :: rest => { displayName := role.Name, id := role.ID } :: roleListGo rest

/-- roleBuilder.List on one fetched page. -/
def roleList (resp : UserRoleConnection) : List RoleResource × String :=
  (roleListGo resp.Nodes,
   if resp.pageInfo.HasNextPage then resp.pageInfo.EndCursor else "")

/-! ## Project mapper (projectBuilder, src/pkg/connector/projects.go) -/

/-- The loop body of projectBuilder.List over the page's Nodes: one group
resource per project. -/
def projectListGo : List Project → List ProjectResource
  | [] => []
  | project :: rest =>
    { displayName := project.Name, id := project.ID, description := project.Description }
      :: projectListGo rest

/-- projectBuilder.List on one fetched page. -/
def projectList (resp : ProjectConnection) : List ProjectResource × String :=
  (projectListGo resp.Nodes,
   if resp.pageInfo.HasNextPage then resp.pageInfo.EndCursor else "")

/-- Owner loop of projectBuilder.Grants: owners with an empty Email are
skipped; each other owner yields an "owner" grant on the requested project
with the owner's email as the principal resource id. -/
def ownerGrantsGo (projectID : String) : List ProjectOwner → List Grant
  | [] => []
  | owner :: rest =>
    if owner.Email = "" then ownerGrantsGo projectID rest
    else { objType := "project", objId := projectID, slug := "owner", principal := owner.Email }
      :: ownerGrantsGo projectID rest

/-- Champion loop of projectBuilder.Grants: champions with an empty Email are
skipped; each other champion yields a "champion" grant. -/
def championGrantsGo (projectID : String) : List SecurityChampion → List Grant
  | [] => []
  | champion :: rest =>
    if champion.Email = "" then championGrantsGo projectID rest
    else { objType := "project", objId := projectID, slug := "champion", principal := champion.Email }
      :: championGrantsGo projectID rest

/-- The scan of projectBuilder.Grants over the page's Nodes: projects whose ID
differs from the requested resource id are skipped with `continue`; at the
first match the owner and champion grants are emitted and the loop `break`s. -/
def projectGrantsGo (projectID : String) : List Project → List Grant
  | [] => []
  | project :: rest =>
    if project.ID ≠ projectID then projectGrantsGo projectID rest
    else ownerGrantsGo projectID project.ProjectOwners
      ++ championGrantsGo projectID project.SecurityChampions

/-- projectBuilder.Grants on one fetched page, for the project resource with
id `projectID`: the emitted grants and the next-page token. -/
def projectGrants (projectID : String) (resp : ProjectConnection) : List Grant × String :=
  (projectGrantsGo projectID resp.Nodes,
   if resp.pageInfo.HasNextPage then resp.pageInfo.EndCursor else "")

/-! ## Security-insight mapper (insightBuilder, src/unnamed/part_004) -/

/-- Boolean prefix test on character lists, mirroring strings.HasPrefix. -/
def goHasPre : List Char → List Char → Bool
  | [], _ => true
  | _ :: _, [] => false
  | p :: ps, c :: cs => p == c && goHasPre ps cs

/-- Boolean substring test on character lists, mirroring strings.Contains:
the needle is a prefix of some suffix of the haystack. -/
def goContainsSub (sub : List Char) : List Char → Bool
  | [] => goHasPre sub []
  | c :: cs => goHasPre sub (c :: cs) || goContainsSub sub cs

/-- detectAppHint from the insight mapper: classify an external resource id as
a cloud-provider hint by prefix/substring pattern rules. -/
def detectAppHint (externalID : String) : String :=
  if goHasPre "arn:aws:".data externalID.data then "aws"
  else if goHasPre "/subscriptions/".data externalID.data then "azure"
  else if goHasPre "//".data externalID.data then "gcp"
  else if goContainsSub "projects/".data externalID.data
       && goContainsSub "/".data externalID.data then "gcp"
  else "unknown"

/-- The insight resource built for one kept issue: the resource id is the
issue id and the affected resource's external id joined by ":". -/
def mkInsightResource (issue : Issue) : InsightResource :=
  { displayName := issue.sourceRule.Name ++ " - " ++ issue.entitySnapshot.Name
    id := issue.ID ++ ":" ++ issue.entitySnapshot.ExternalID
    externalId := issue.entitySnapshot.ExternalID
    appHint := detectAppHint issue.entitySnapshot.ExternalID }

/-- The loop body of insightBuilder.List over the page's Nodes: issues whose
entity-snapshot ExternalID or issue ID is empty are skipped with `continue`;
every other issue is appended as a security-insight resource. -/
def insightListGo : List Issue → List InsightResource
  | [] => []
  | issue :: rest =>
    if issue.entitySnapshot.ExternalID = "" ∨ issue.ID = "" then insightListGo rest
    else mkInsightResource issue :: insightListGo rest

/-- insightBuilder.List on one fetched page. -/
def insightList (resp : IssueConnection) : List InsightResource × String :=
  (insightListGo resp.Nodes,
   if resp.pageInfo.HasNextPage then resp.pageInfo.EndCursor else "")

/-! ## Transport-layer lemmas -/

/-- The retry loop never issues more attempts than its fuel allows. -/
theorem graphQLRequestLoop_attempts_le (responses : Nat → HttpAttempt) :
    ∀ fuel attempt, (graphQLRequestLoop responses fuel attempt).2 ≤ fuel := by
  intro fuel
  induction fuel with
  | zero => intro attempt; simp [graphQLRequestLoop]
  | succ f ih =>
    intro attempt
    simp only [graphQLRequestLoop]
    cases responses attempt with
    | netErr =>
      by_cases ha : attempt < maxRetries
      · simpa [ha] using Nat.succ_le_succ (ih (attempt + 1))
      · simp [ha]
    | resp status parse =>
      by_cases h429 : status = 429
      · by_cases ha : attempt < maxRetries
        · simpa [h429, ha] using Nat.succ_le_succ (ih (attempt + 1))
        · simp [h429, ha]
      · by_cases h200 : status = 200
        · cases parse with
          | malformed => simp [h429, h200]
          | parsed numErrors =>
            by_cases hn : numErrors > 0
            · simp [h429, h200, hn]
            · simp [h429, h200, hn]
        · simp [h429, h200]

/-- When every attempt up to the retry bound is answered 429, the loop runs to
exhaustion and returns the rate-limit-exceeded error, using exactly its fuel. -/
theorem graphQLRequestLoop_all429 (responses : Nat → HttpAttempt)
    (h : ∀ k, k ≤ maxRetries → ∃ p, responses k = HttpAttempt.resp 429 p) :
    ∀ fuel attempt, fuel + attempt = maxRetries + 1 → 1 ≤ fuel →
      graphQLRequestLoop responses fuel attempt = (ReqResult.rateLimited, fuel) := by
  intro fuel
  induction fuel with
  | zero => intro attempt _ hge; omega
  | succ f ih =>
    intro attempt hsum _
    obtain ⟨p, hp⟩ := h attempt (by omega)
    by_cases hf : f = 0
    · have hat : attempt = maxRetries := by omega
      subst hat
      subst hf
      simp [graphQLRequestLoop, hp]
    · have ha : attempt < maxRetries := by
        have : maxRetries = 5 := rfl
        omega
      have hrec := ih (attempt + 1) (by omega) (by omega)
      simp [graphQLRequestLoop, hp, ha, hrec]

/-- Claim C1: in the transport layer's graphQLRequest, when every HTTP attempt
returns status 429, the call is bounded by the fixed retry budget, but the
budget is the initial attempt plus 5 retries (6 HTTP attempts in total): after
6 consecutive 429 responses the call returns the fatal rate-limit error, and
no 7th attempt is ever issued; in general no call issues more than 6 attempts. -/
theorem claim_C1_retry_exhaustion (responses : Nat → HttpAttempt)
    (h : ∀ k, k ≤ maxRetries → ∃ p, responses k = HttpAttempt.resp 429 p) :
    graphQLRequest responses = (ReqResult.rateLimited, 6)
      ∧ ∀ rs : Nat → HttpAttempt, (graphQLRequest rs).2 ≤ 6 := by
  constructor
  · exact graphQLRequestLoop_all429 responses h (maxRetries + 1) 0 (by rfl) (by norm_num)
  · intro rs
    exact graphQLRequestLoop_attempts_le rs (maxRetries + 1) 0

/-- Witness for claim C1 at the all-429 environment. -/
theorem claim_C1_retry_exhaustion_witness :
    graphQLRequest (fun _ => HttpAttempt.resp 429 (ParseOutcome.parsed 0))
      = (ReqResult.rateLimited, 6) :=
  (claim_C1_retry_exhaustion (fun _ => HttpAttempt.resp 429 (ParseOutcome.parsed 0))
    (fun _ _ => ⟨ParseOutcome.parsed 0, rfl⟩)).1

/-- Counterexample to claim C1 as stated: after 5 consecutive 429 responses a
6th HTTP attempt IS issued (the all-429 run issues 6 attempts, not at most 5). -/
theorem claim_C1_counterexample :
    ¬ ((graphQLRequest (fun _ => HttpAttempt.resp 429 (ParseOutcome.parsed 0))).2 ≤ 5) := by
  decide

/-- Claim C4: a call whose first attempt returns HTTP 200 with a non-empty
GraphQL errors array fails immediately with the aggregated GraphQL-errors
result, issuing exactly one HTTP attempt and no retry. -/
theorem claim_C4_graphql_errors_no_retry (responses : Nat → HttpAttempt) (n : Nat)
    (h : responses 0 = HttpAttempt.resp 200 (ParseOutcome.parsed n)) (hn : 0 < n) :
    graphQLRequest responses = (ReqResult.gqlErrors n, 1) := by
  simp [graphQLRequest, graphQLRequestLoop, h, hn]

/-- Witness for claim C4 at a concrete environment with 3 GraphQL errors. -/
theorem claim_C4_graphql_errors_no_retry_witness :
    graphQLRequest (fun _ => HttpAttempt.resp 200 (ParseOutcome.parsed 3))
      = (ReqResult.gqlErrors 3, 1) :=
  claim_C4_graphql_errors_no_retry
    (fun _ => HttpAttempt.resp 200 (ParseOutcome.parsed 3)) 3 rfl (by norm_num)

/-! ## Backoff lemmas (claim C2).  All delays are in nanoseconds. -/

/-- Claim C2 (amended): calculateBackoff clamps the exponential delay to the
cap BEFORE adding jitter, so for every attempt k ≤ 5 and every random draw
r ∈ [0, 1] the delay lies in [0.9 * 2^k s, 1.1 * 2^k s] (the exponential term
1s * 2^k never exceeds the 32s cap for k ≤ 5, so the clamp does not bind and
does not truncate the jittered value); in particular the attempt-0 delay is in
[0.9s, 1.1s] and the attempt-5 delay is in [28.8s, 35.2s], NOT capped at 32s. -/
theorem claim_C2_backoff_bounds (k : ℕ) (hk : k ≤ 5) (r : ℚ) (hr0 : 0 ≤ r) (hr1 : r ≤ 1) :
    (9 * 10 ^ 8 * 2 ^ k : ℤ) ≤ calculateBackoff k baseDelayNs maxDelayNs jitterFraction r
      ∧ calculateBackoff k baseDelayNs maxDelayNs jitterFraction r ≤ 11 * 10 ^ 8 * 2 ^ k := by
  have hpow : (2 : ℚ) ^ k ≤ 32 := by
    calc (2 : ℚ) ^ k ≤ 2 ^ 5 := pow_le_pow_right₀ (by norm_num) hk
    _ = 32 := by norm_num
  have h2 : (0 : ℚ) < 2 ^ k := by positivity
  unfold calculateBackoff baseDelayNs maxDelayNs jitterFraction
  have hcond : ¬ ((1000000000 : ℚ) * 2 ^ k > 32000000000) := by nlinarith
  simp only [hcond, if_false]
  constructor
  · rw [Int.le_floor]
    push_cast
    nlinarith [mul_nonneg h2.le hr0]
  · have hfl := Int.floor_le
      ((1000000000 : ℚ) * 2 ^ k + 1000000000 * 2 ^ k * (1 / 10) * (2 * r - 1))
    have hub : (1000000000 : ℚ) * 2 ^ k + 1000000000 * 2 ^ k * (1 / 10) * (2 * r - 1)
        ≤ ((11 * 10 ^ 8 * 2 ^ k : ℤ) : ℚ) := by
      push_cast
      nlinarith [mul_nonneg h2.le (by linarith : (0 : ℚ) ≤ 1 - r)]
    exact_mod_cast hfl.trans hub

/-- Witness for claim C2 at attempt 5 with draw r = 3/4 (jitter +1.6s):
bounds 28.8s and 35.2s in nanoseconds. -/
theorem claim_C2_backoff_bounds_witness :
    (9 * 10 ^ 8 * 2 ^ 5 : ℤ) ≤ calculateBackoff 5 baseDelayNs maxDelayNs jitterFraction (3 / 4)
      ∧ calculateBackoff 5 baseDelayNs maxDelayNs jitterFraction (3 / 4) ≤ 11 * 10 ^ 8 * 2 ^ 5 :=
  claim_C2_backoff_bounds 5 (by norm_num) (3 / 4) (by norm_num) (by norm_num)

/-- Counterexample to claim C2 as stated: at attempt 5 with the jitter draw
u = 1/2 (rand.Float64() = 3/4) the computed delay is 33.6s, which lies outside
the claimed cap-clamped interval [28.8s, 32s]. -/
theorem claim_C2_counterexample :
    calculateBackoff 5 baseDelayNs maxDelayNs jitterFraction (3 / 4) = 33600000000
      ∧ ¬ (calculateBackoff 5 baseDelayNs maxDelayNs jitterFraction (3 / 4) ≤ 32000000000) := by
  constructor
  · norm_num [calculateBackoff, baseDelayNs, maxDelayNs, jitterFraction]
  · norm_num [calculateBackoff, baseDelayNs, maxDelayNs, jitterFraction]

/-! ## User mapper lemmas (claims C3 and C7) -/

/-- The List loop of the user mapper is the filter-then-map of its page:
exactly the users with an empty Email are dropped. -/
theorem userListGo_eq_filter_map (l : List User) :
    userListGo l = (l.filter (fun u => u.Email ≠ "")).map mkUserResource := by
  induction l with
  | nil => rfl
  | cons user rest ih =>
    by_cases h : user.Email = ""
    · simp [userListGo, h, ih]
    · simp [userListGo, h, ih]

/-- Every grant emitted by the project loop of userBuilder.Grants carries the
given principal id. -/
theorem userProjectGrantsGo_principal (principalId : String) (ids : List String) :
    ∀ g ∈ userProjectGrantsGo principalId ids, g.principal = principalId := by
  induction ids with
  | nil => intro g hg; simp [userProjectGrantsGo] at hg
  | cons pid rest ih =>
    intro g hg
    by_cases h : pid = ""
    · exact ih g (by simpa [userProjectGrantsGo, h] using hg)
    · rw [userProjectGrantsGo, if_neg h] at hg
      rcases List.mem_cons.mp hg with hg | hg
      · subst hg; rfl
      · exact ih g hg

/-- Every grant emitted by userBuilder.Grants has the user resource itself as
the principal. -/
theorem userGrants_principal (res : UserResource) :
    ∀ g ∈ userGrants res, g.principal = res.id := by
  intro g hg
  unfold userGrants at hg
  cases hpr : res.profile with
  | none => rw [hpr] at hg; simp at hg
  | some profile =>
    rw [hpr] at hg
    simp only [List.mem_append] at hg
    rcases hg with hg | hg
    · cases hrid : profile.role_id with
      | none => rw [hrid] at hg; simp at hg
      | some roleID =>
        rw [hrid] at hg
        by_cases h : roleID = ""
        · simp [h] at hg
        · simp only [h, ne_eq, not_false_eq_true, if_true, List.mem_singleton] at hg
          simp [hg]
    · cases hpid : profile.project_ids with
      | none => rw [hpid] at hg; simp at hg
      | some projectIDs =>
        rw [hpid] at hg
        exact userProjectGrantsGo_principal res.id projectIDs g hg

/-- Claim C3: the user mapper's List excludes exactly the upstream records
whose email is empty (a filtering policy, not an error), uses the email as the
id of every emitted resource, and no skipped record ever appears in the user
mapper's Grants output (every grant principal is the id of an emitted
resource, which is a non-empty email). -/
theorem claim_C3_user_list_email_filter (resp : UserConnection) :
    (userList resp).1 = (resp.Nodes.filter (fun u => u.Email ≠ "")).map mkUserResource
    ∧ (userList resp).1.length = (resp.Nodes.filter (fun u => u.Email ≠ "")).length
    ∧ (∀ u ∈ resp.Nodes, u.Email ≠ "" →
        mkUserResource u ∈ (userList resp).1 ∧ (mkUserResource u).id = u.Email)
    ∧ (∀ u ∈ resp.Nodes, u.Email = "" →
        ∀ r ∈ (userList resp).1, r.id ≠ u.Email ∧ ∀ g ∈ userGrants r, g.principal ≠ u.Email) := by
  have hbase : (userList resp).1 = userListGo resp.Nodes := rfl
  have heq := userListGo_eq_filter_map resp.Nodes
  refine ⟨hbase.trans heq, ?_, ?_, ?_⟩
  · rw [hbase, heq, List.length_map]
  · intro u hu hne
    refine ⟨?_, rfl⟩
    rw [hbase, heq]
    exact List.mem_map_of_mem _ (List.mem_filter.mpr ⟨hu, by simpa using hne⟩)
  · intro u _ hemp r hr
    rw [hbase, heq] at hr
    obtain ⟨v, hv, hvr⟩ := List.mem_map.mp hr
    have hvne : v.Email ≠ "" := by
      have := (List.mem_filter.mp hv).2
      simpa using this
    have hid : r.id = v.Email := by rw [← hvr]; rfl
    constructor
    · rw [hid, hemp]; exact hvne
    · intro g hg
      rw [userGrants_principal r g hg, hid, hemp]
      exact hvne

/-- Witness for claim C3: on a page with one user with email "a@x" and one
email-less user, the role grant emitted for the kept user has a non-empty
principal, so the skipped record appears in no Grants output. -/
theorem claim_C3_user_list_email_filter_witness :
    ({ objType := "role", objId := "r1", slug := "member", principal := "a@x" } : Grant).principal
      ≠ "" := by
  have happ := (claim_C3_user_list_email_filter
    { Nodes := [{ ID := "id-1", Email := "a@x", Name := "A",
                  EffectiveRole := { ID := "r1", Name := "Admin" },
                  EffectiveAssignedProjects := [] },
                { ID := "id-2", Email := "", Name := "B",
                  EffectiveRole := { ID := "", Name := "" },
                  EffectiveAssignedProjects := [] }]
      pageInfo := { HasNextPage := false, EndCursor := "" } }).2.2.2
  exact (happ { ID := "id-2", Email := "", Name := "B",
                EffectiveRole := { ID := "", Name := "" },
                EffectiveAssignedProjects := [] } (by simp) rfl
    (mkUserResource { ID := "id-1", Email := "a@x", Name := "A",
                      EffectiveRole := { ID := "r1", Name := "Admin" },
                      EffectiveAssignedProjects := [] })
    (by simp [userList, userListGo])).2
    { objType := "role", objId := "r1", slug := "member", principal := "a@x" }
    (by simp [userGrants, mkUserResource, buildUserProfile])

/-- The project-grant loop of userBuilder.Grants is the filter-then-map of the
stored project-id list: exactly the empty ids are dropped. -/
theorem userProjectGrantsGo_eq_filter_map (principalId : String) (ids : List String) :
    userProjectGrantsGo principalId ids = (ids.filter (fun s => s ≠ "")).map
      (fun projectID =>
        { objType := "project", objId := projectID, slug := "member", principal := principalId }) := by
  induction ids with
  | nil => rfl
  | cons pid rest ih =>
    by_cases h : pid = ""
    · simp [userProjectGrantsGo, h, ih]
    · simp [userProjectGrantsGo, h, ih]

/-- Claim C7: userBuilder.Grants degrades gracefully — with no profile, or
with the role/project fields absent or unpopulated, it returns the empty grant
set (and no error); when the fields are populated it emits exactly one
"member" grant for the stored role id and one "member" grant per stored
project id. -/
theorem claim_C7_user_grants_degrade :
    (∀ res : UserResource, res.profile = none → userGrants res = [])
    ∧ (∀ (res : UserResource) (p : UserProfile), res.profile = some p →
        (p.role_id = none ∨ p.role_id = some "") →
        (p.project_ids = none ∨ p.project_ids = some []) →
        userGrants res = [])
    ∧ (∀ (res : UserResource) (p : UserProfile) (roleID : String) (projectIDs : List String),
        res.profile = some p → p.role_id = some roleID → roleID ≠ "" →
        p.project_ids = some projectIDs → (∀ pid ∈ projectIDs, pid ≠ "") →
        userGrants res =
          { objType := "role", objId := roleID, slug := "member", principal := res.id }
            :: projectIDs.map (fun pid =>
                { objType := "project", objId := pid, slug := "member", principal := res.id })
          ∧ (userGrants res).length = 1 + projectIDs.length) := by
  refine ⟨?_, ?_, ?_⟩
  · intro res h
    simp [userGrants, h]
  · intro res p hp hrole hproj
    rcases hrole with hrole | hrole <;> rcases hproj with hproj | hproj <;>
      simp [userGrants, hp, hrole, hproj, userProjectGrantsGo]
  · intro res p roleID projectIDs hp hrole hne hproj hall
    have hfilter : projectIDs.filter (fun s => !decide (s = "")) = projectIDs :=
      List.filter_eq_self.mpr (fun pid hpid => by simpa using hall pid hpid)
    have heq : userGrants res =
        { objType := "role", objId := roleID, slug := "member", principal := res.id }
          :: projectIDs.map (fun pid =>
              { objType := "project", objId := pid, slug := "member", principal := res.id }) := by
      simp [userGrants, hp, hrole, hne, hproj, userProjectGrantsGo_eq_filter_map, hfilter]
    refine ⟨heq, ?_⟩
    rw [heq]
    simp [Nat.add_comm]

/-- Witness for claim C7 at a populated profile with role "r1" and projects
["p1", "p2"]: exactly three "member" grants. -/
theorem claim_C7_user_grants_degrade_witness :
    (userGrants { displayName := "a@x", id := "a@x", email := "a@x",
                  profile := some { role_id := some "r1", project_ids := some ["p1", "p2"] } }).length
      = 1 + (["p1", "p2"] : List String).length :=
  (claim_C7_user_grants_degrade.2.2
    { displayName := "a@x", id := "a@x", email := "a@x",
      profile := some { role_id := some "r1", project_ids := some ["p1", "p2"] } }
    { role_id := some "r1", project_ids := some ["p1", "p2"] }
    "r1" ["p1", "p2"] rfl rfl (by simp) rfl (by simp)).2

/-! ## Project mapper lemmas (claim C5) -/

/-- The owner loop of projectBuilder.Grants is the filter-then-map of the
owner list: exactly the owners with an empty email are dropped. -/
theorem ownerGrantsGo_eq_filter_map (projectID : String) (owners : List ProjectOwner) :
    ownerGrantsGo projectID owners = (owners.filter (fun o => o.Email ≠ "")).map
      (fun o => { objType := "project", objId := projectID, slug := "owner", principal := o.Email }) := by
  induction owners with
  | nil => rfl
  | cons owner rest ih =>
    by_cases h : owner.Email = ""
    · simp [ownerGrantsGo, h, ih]
    · simp [ownerGrantsGo, h, ih]

/-- The champion loop of projectBuilder.Grants is the filter-then-map of the
champion list: exactly the champions with an empty email are dropped. -/
theorem championGrantsGo_eq_filter_map (projectID : String) (champions : List SecurityChampion) :
    championGrantsGo projectID champions = (champions.filter (fun c => c.Email ≠ "")).map
      (fun c => { objType := "project", objId := projectID, slug := "champion", principal := c.Email }) := by
  induction champions with
  | nil => rfl
  | cons champion rest ih =>
    by_cases h : champion.Email = ""
    · simp [championGrantsGo, h, ih]
    · simp [championGrantsGo, h, ih]

/-- The grant scan of projectBuilder.Grants emits the owner and champion
grants of the first project on the page whose ID matches the requested one. -/
theorem projectGrantsGo_find (projectID : String) (l : List Project) (proj : Project)
    (hfind : l.find? (fun p => p.ID == projectID) = some proj) :
    projectGrantsGo projectID l =
      ownerGrantsGo projectID proj.ProjectOwners
        ++ championGrantsGo projectID proj.SecurityChampions := by
  induction l with
  | nil => simp at hfind
  | cons project rest ih =>
    by_cases h : project.ID = projectID
    · rw [List.find?_cons_of_pos _ (by simp [h])] at hfind
      have : project = proj := by simpa using hfind
      subst this
      simp [projectGrantsGo, h]
    · rw [List.find?_cons_of_neg _ (by simp [h])] at hfind
      rw [projectGrantsGo, if_pos h]
      exact ih hfind

/-- Claim C5: for a project resource whose ID matches a project on the fetched
page, projectBuilder.Grants emits exactly one "owner" grant per owner with a
non-empty email and one "champion" grant per security champion with a
non-empty email, each with the principal identified by that email; principals
with an empty email are skipped. -/
theorem claim_C5_project_grants (projectID : String) (resp : ProjectConnection) (proj : Project)
    (hfind : resp.Nodes.find? (fun p => p.ID == projectID) = some proj) :
    (projectGrants projectID resp).1 =
      (proj.ProjectOwners.filter (fun o => o.Email ≠ "")).map
        (fun o => { objType := "project", objId := projectID, slug := "owner", principal := o.Email })
      ++ (proj.SecurityChampions.filter (fun c => c.Email ≠ "")).map
        (fun c => { objType := "project", objId := projectID, slug := "champion", principal := c.Email })
    ∧ (projectGrants projectID resp).1.length =
        (proj.ProjectOwners.filter (fun o => o.Email ≠ "")).length
          + (proj.SecurityChampions.filter (fun c => c.Email ≠ "")).length := by
  have hgo : (projectGrants projectID resp).1 =
      ownerGrantsGo projectID proj.ProjectOwners
        ++ championGrantsGo projectID proj.SecurityChampions :=
    projectGrantsGo_find projectID resp.Nodes proj hfind
  constructor
  · rw [hgo, ownerGrantsGo_eq_filter_map, championGrantsGo_eq_filter_map]
  · rw [hgo, ownerGrantsGo_eq_filter_map, championGrantsGo_eq_filter_map]
    simp

/-- Witness for claim C5: a project with two owners and one champion, all with
emails, yields exactly three grants. -/
theorem claim_C5_project_grants_witness :
    (projectGrants "p1"
      { Nodes := [{ ID := "p1", Name := "P1", Description := "",
                    ProjectOwners := [{ ID := "u1", Email := "a@x" }, { ID := "u2", Email := "b@x" }],
                    SecurityChampions := [{ ID := "u3", Email := "c@x" }] }],
        pageInfo := { HasNextPage := false, EndCursor := "" } }).1 =
      [{ objType := "project", objId := "p1", slug := "owner", principal := "a@x" },
       { objType := "project", objId := "p1", slug := "owner", principal := "b@x" },
       { objType := "project", objId := "p1", slug := "champion", principal := "c@x" }] := by
  have happ := (claim_C5_project_grants "p1"
    { Nodes := [{ ID := "p1", Name := "P1", Description := "",
                  ProjectOwners := [{ ID := "u1", Email := "a@x" }, { ID := "u2", Email := "b@x" }],
                  SecurityChampions := [{ ID := "u3", Email := "c@x" }] }],
      pageInfo := { HasNextPage := false, EndCursor := "" } }
    { ID := "p1", Name := "P1", Description := "",
      ProjectOwners := [{ ID := "u1", Email := "a@x" }, { ID := "u2", Email := "b@x" }],
      SecurityChampions := [{ ID := "u3", Email := "c@x" }] }
    (by simp)).1
  rw [happ]
  simp

/-! ## Role mapper lemmas (claim C6) -/

/-- The List loop of the role mapper emits one role resource per node. -/
theorem roleListGo_eq_map (l : List UserRole) :
    roleListGo l = l.map (fun role => { displayName := role.Name, id := role.ID }) := by
  induction l with
  | nil => rfl
  | cons role rest ih => simp [roleListGo, ih]

/-- Claim C6: a flat-array role-collection response of N roles is normalized
by ListUserRoles to the same page-info contract as a cursor-paginated one — a
single complete page: hasNextPage=false, so roleBuilder.List returns all N
role resources and an empty next-page token. -/
theorem claim_C6_flat_roles_single_page (roles : List UserRole) :
    roleList (listUserRolesFlat roles) =
      (roles.map (fun role => { displayName := role.Name, id := role.ID }), "")
    ∧ (roleList (listUserRolesFlat roles)).1.length = roles.length
    ∧ (listUserRolesFlat roles).pageInfo.HasNextPage = false := by
  refine ⟨?_, ?_, rfl⟩
  · rw [Prod.ext_iff]
    exact ⟨roleListGo_eq_map roles, rfl⟩
  · show (roleListGo roles).length = roles.length
    rw [roleListGo_eq_map, List.length_map]

/-! ## Pagination-token lemmas (claim C9) -/

/-- Characterization of the next-page-token pattern shared by every mapper
operation (`if HasNextPage { NextPageToken = EndCursor }` on a zero-valued
SyncOpResults). -/
theorem nextTokenPattern (hasNext : Bool) (endCursor : String) :
    ((if hasNext then endCursor else "") = "" ↔ hasNext = false ∨ endCursor = "")
    ∧ (hasNext = true → (if hasNext then endCursor else "") = endCursor)
    ∧ (hasNext = false → (if hasNext then endCursor else "") = "") := by
  cases hasNext <;> simp

/-- Claim C9 (amended): for each mapper operation the returned next-page token
equals the upstream endCursor when hasNextPage is true and is empty when
hasNextPage is false — hence it is empty iff hasNextPage is false OR the
upstream endCursor is itself empty; and an empty incoming page token sends a
nil cursor upstream while a non-empty one is passed through as the cursor. -/
theorem claim_C9_pagination_tokens (uresp : UserConnection) (rresp : UserRoleConnection)
    (presp : ProjectConnection) (iresp : IssueConnection) (token : String) :
    ((userList uresp).2 = "" ↔ uresp.pageInfo.HasNextPage = false ∨ uresp.pageInfo.EndCursor = "")
    ∧ (uresp.pageInfo.HasNextPage = true → (userList uresp).2 = uresp.pageInfo.EndCursor)
    ∧ (uresp.pageInfo.HasNextPage = false → (userList uresp).2 = "")
    ∧ ((roleList rresp).2 = "" ↔ rresp.pageInfo.HasNextPage = false ∨ rresp.pageInfo.EndCursor = "")
    ∧ (rresp.pageInfo.HasNextPage = true → (roleList rresp).2 = rresp.pageInfo.EndCursor)
    ∧ (rresp.pageInfo.HasNextPage = false → (roleList rresp).2 = "")
    ∧ ((projectList presp).2 = ""
        ↔ presp.pageInfo.HasNextPage = false ∨ presp.pageInfo.EndCursor = "")
    ∧ (presp.pageInfo.HasNextPage = true → (projectList presp).2 = presp.pageInfo.EndCursor)
    ∧ (presp.pageInfo.HasNextPage = false → (projectList presp).2 = "")
    ∧ ((insightList iresp).2 = ""
        ↔ iresp.pageInfo.HasNextPage = false ∨ iresp.pageInfo.EndCursor = "")
    ∧ (iresp.pageInfo.HasNextPage = true → (insightList iresp).2 = iresp.pageInfo.EndCursor)
    ∧ (iresp.pageInfo.HasNextPage = false → (insightList iresp).2 = "")
    ∧ cursorFromToken "" = none
    ∧ (token ≠ "" → cursorFromToken token = some token) := by
  obtain ⟨hu1, hu2, hu3⟩ := nextTokenPattern uresp.pageInfo.HasNextPage uresp.pageInfo.EndCursor
  obtain ⟨hr1, hr2, hr3⟩ := nextTokenPattern rresp.pageInfo.HasNextPage rresp.pageInfo.EndCursor
  obtain ⟨hp1, hp2, hp3⟩ := nextTokenPattern presp.pageInfo.HasNextPage presp.pageInfo.EndCursor
  obtain ⟨hi1, hi2, hi3⟩ := nextTokenPattern iresp.pageInfo.HasNextPage iresp.pageInfo.EndCursor
  exact ⟨hu1, hu2, hu3, hr1, hr2, hr3, hp1, hp2, hp3, hi1, hi2, hi3, rfl,
    fun ht => by simp [cursorFromToken, ht]⟩

/-- Witness for claim C9 at a concrete page with hasNextPage=true and
endCursor "cur", and incoming token "tok". -/
theorem claim_C9_pagination_tokens_witness :
    (projectList { Nodes := [], pageInfo := { HasNextPage := true, EndCursor := "cur" } }).2
      = "cur" :=
  (claim_C9_pagination_tokens
    { Nodes := [], pageInfo := { HasNextPage := false, EndCursor := "" } }
    { Nodes := [], pageInfo := { HasNextPage := false, EndCursor := "" } }
    { Nodes := [], pageInfo := { HasNextPage := true, EndCursor := "cur" } }
    { Nodes := [], pageInfo := { HasNextPage := false, EndCursor := "" } }
    "tok").2.2.2.2.2.2.2.1 rfl

/-- Counterexample to claim C9 as stated: when the upstream page-info reports
hasNextPage=true with an empty endCursor, the returned token is empty although
hasNextPage is not false, so "empty exactly when hasNextPage=false" fails. -/
theorem claim_C9_counterexample :
    ¬ ((projectList { Nodes := [], pageInfo := { HasNextPage := true, EndCursor := "" } }).2 = ""
        ↔ ({ HasNextPage := true, EndCursor := "" } : PageInfo).HasNextPage = false) := by
  simp [projectList]

/-! ## Security-insight mapper lemmas (claim C10) -/

/-- The List loop of the insight mapper is the filter-then-map of its page:
exactly the issues with an empty external id or an empty issue id are
dropped. -/
theorem insightListGo_eq_filter_map (l : List Issue) :
    insightListGo l = (l.filter
        (fun i => ¬(i.entitySnapshot.ExternalID = "" ∨ i.ID = ""))).map mkInsightResource := by
  induction l with
  | nil => rfl
  | cons issue rest ih =>
    by_cases h1 : issue.entitySnapshot.ExternalID = ""
    · simp [insightListGo, h1, ih]
    · by_cases h2 : issue.ID = ""
      · simp [insightListGo, h1, h2, ih]
      · simp [insightListGo, h1, h2, ih]

/-- Claim C10: the security-insight mapper's List silently excludes exactly
the findings with an empty finding ID or an empty affected-resource external
ID, and every other finding yields exactly one resource whose ID is the
finding ID and the external ID joined with ":". -/
theorem claim_C10_insight_filter (resp : IssueConnection) :
    (insightList resp).1 = (resp.Nodes.filter
        (fun i => ¬(i.entitySnapshot.ExternalID = "" ∨ i.ID = ""))).map mkInsightResource
    ∧ (insightList resp).1.length = (resp.Nodes.filter
        (fun i => ¬(i.entitySnapshot.ExternalID = "" ∨ i.ID = ""))).length
    ∧ (∀ i ∈ resp.Nodes, ¬(i.entitySnapshot.ExternalID = "" ∨ i.ID = "") →
        mkInsightResource i ∈ (insightList resp).1
          ∧ (mkInsightResource i).id = i.ID ++ ":" ++ i.entitySnapshot.ExternalID) := by
  have hbase : (insightList resp).1 = insightListGo resp.Nodes := rfl
  have heq := insightListGo_eq_filter_map resp.Nodes
  refine ⟨hbase.trans heq, ?_, ?_⟩
  · rw [hbase, heq, List.length_map]
  · intro i hi hkeep
    refine ⟨?_, rfl⟩
    rw [hbase, heq]
    exact List.mem_map_of_mem _ (List.mem_filter.mpr ⟨hi, by simpa using hkeep⟩)

/-- Witness for claim C10 at a concrete finding: id "i1" affecting external
resource "arn:aws:s3:::b" yields the composite resource id "i1:arn:aws:s3:::b". -/
theorem claim_C10_insight_filter_witness :
    (mkInsightResource
      { ID := "i1", type := "TOXIC_COMBINATION", Severity := "HIGH", Status := "OPEN",
        CreatedAt := "2024-01-01T00:00:00Z", sourceRule := { Name := "Rule" },
        entitySnapshot := { ID := "e1", ExternalID := "arn:aws:s3:::b",
                            CloudPlatform := none, type := "BUCKET", Name := "b" } }).id
      = "i1" ++ ":" ++ "arn:aws:s3:::b" :=
  ((claim_C10_insight_filter
    { Nodes := [{ ID := "i1", type := "TOXIC_COMBINATION", Severity := "HIGH", Status := "OPEN",
                  CreatedAt := "2024-01-01T00:00:00Z", sourceRule := { Name := "Rule" },
                  entitySnapshot := { ID := "e1", ExternalID := "arn:aws:s3:::b",
                                      CloudPlatform := none, type := "BUCKET", Name := "b" } }],
      pageInfo := { HasNextPage := false, EndCursor := "" } }).2.2
    { ID := "i1", type := "TOXIC_COMBINATION", Severity := "HIGH", Status := "OPEN",
      CreatedAt := "2024-01-01T00:00:00Z", sourceRule := { Name := "Rule" },
      entitySnapshot := { ID := "e1", ExternalID := "arn:aws:s3:::b",
                          CloudPlatform := none, type := "BUCKET", Name := "b" } }
    (by simp) (by simp)).2

/-! ## Cloud-provider inference lemmas (claim C8) -/

/-- A character list matched by a non-empty pattern starts with the pattern's
first character, and the rest matches the rest of the pattern. -/
theorem goHasPre_head (p : Char) (ps l : List Char)
    (h : goHasPre (p :: ps) l = true) : ∃ cs, l = p :: cs ∧ goHasPre ps cs = true := by
  cases l with
  | nil => simp [goHasPre] at h
  | cons c cs =>
    simp [goHasPre] at h
    exact ⟨cs, by rw [h.1], h.2⟩

/-- A pattern whose first character differs from the list's first character
does not match. -/
theorem goHasPre_cons_ne (p c : Char) (ps cs : List Char) (hne : p ≠ c) :
    goHasPre (p :: ps) (c :: cs) = false := by
  simp [goHasPre, hne]

/-- Claim C8: detectAppHint classifies every external identifier starting with
"arn:aws:" as "aws", every one starting with "/subscriptions/" as "azure",
every one starting with "//" as "gcp", and every one matching none of the
pattern rules (the three prefix rules and the projects-path substring rule) as
"unknown"; in particular the four example identifiers classify as expected. -/
theorem claim_C8_detect_app_hint :
    (∀ s : String, goHasPre "arn:aws:".data s.data = true → detectAppHint s = "aws")
    ∧ (∀ s : String, goHasPre "/subscriptions/".data s.data = true → detectAppHint s = "azure")
    ∧ (∀ s : String, goHasPre "//".data s.data = true → detectAppHint s = "gcp")
    ∧ (∀ s : String, goHasPre "arn:aws:".data s.data = false →
        goHasPre "/subscriptions/".data s.data = false →
        goHasPre "//".data s.data = false →
        (goContainsSub "projects/".data s.data && goContainsSub "/".data s.data) = false →
        detectAppHint s = "unknown")
    ∧ detectAppHint "arn:aws:s3:::bucket" = "aws"
    ∧ detectAppHint "/subscriptions/abc/resourceGroups/x" = "azure"
    ∧ detectAppHint "//compute.googleapis.com/projects/p/zones/z/instances/i" = "gcp"
    ∧ detectAppHint "unrecognized-string" = "unknown" := by
  refine ⟨?_, ?_, ?_, ?_, rfl, rfl, rfl, rfl⟩
  · intro s h
    simp [detectAppHint, h]
  · intro s h
    have haws : goHasPre "arn:aws:".data s.data = false := by
      obtain ⟨cs, hdata, -⟩ := goHasPre_head '/' ("subscriptions/".data) s.data h
      rw [hdata]
      exact goHasPre_cons_ne 'a' '/' _ _ (by decide)
    simp [detectAppHint, haws, h]
  · intro s h
    obtain ⟨cs, hdata, h2⟩ := goHasPre_head '/' ("/".data) s.data h
    obtain ⟨cs2, hdata2, -⟩ := goHasPre_head '/' [] cs h2
    have haws : goHasPre "arn:aws:".data s.data = false := by
      rw [hdata]
      exact goHasPre_cons_ne 'a' '/' _ _ (by decide)
    have hazure : goHasPre "/subscriptions/".data s.data = false := by
      rw [hdata, hdata2]
      simp [goHasPre]
    simp [detectAppHint, haws, hazure, h]
  · intro s h1 h2 h3 h4
    simp [detectAppHint, h1, h2, h3, h4]

/-- Witness for claim C8 at the identifier "/subscriptions/abc": the azure
rule applies. -/
theorem claim_C8_detect_app_hint_witness :
    goHasPre "/subscriptions/".data "/subscriptions/abc".data = true
      ∧ detectAppHint "/subscriptions/abc" = "azure" :=
  ⟨by decide, claim_C8_detect_app_hint.2.1 "/subscriptions/abc" (by decide)⟩

end WizWin
